import Mathlib

/-!
Verification of the DJ Mix Extender track-lifecycle and delivery subsystem.

This file shallowly embeds the server code (path validation, the
process/audio/download route handlers and the background processing job
continuations) as executable Lean definitions, and proves the specified
properties about them.

Conventions of the embedding:
* JavaScript strings are Lean `String`s; the character-level operations the
  code uses (`split`, `replace`, `startsWith`, `includes`, template
  interpolation of numbers) are implemented over `List Char`.
* JavaScript numbers appearing here are integers; `NaN` is modelled by
  `Option Int` with `none` for `NaN` (`parseInt` is the only producer).
* The POSIX behaviour of Node's `path` module (`resolve`, `join`,
  `basename`, `extname`, separator `/`) is implemented directly; the
  process working directory is a parameter `cwd` (an absolute path).
* External collaborators (the filesystem, the persistence layer, the
  Python subprocesses) are abstracted at their interface: the filesystem
  is a map from path to file size, storage lookups are `Option AudioTrack`
  inputs, and subprocess invocations/filesystem touches are recorded as
  explicit effects so that ordering properties can be stated.
-/

/-! ## JavaScript primitives: parseInt, number rendering, split/replace -/

/-- Whitespace skipped by JavaScript `parseInt`. -/
def jsWhitespace (c : Char) : Bool :=
  c = ' ' || c = '\t' || c = '\n' || c = '\r'

/-- Value of a run of decimal digits, with accumulator `a`. -/
def digitsVal (a : Nat) (cs : List Char) : Nat :=
  cs.foldl (fun x c => x * 10 + (c.toNat - 48)) a

/-- Parse an unsigned decimal prefix; `none` when no leading digit (NaN). -/
def parseUnsigned (cs : List Char) : Option Nat :=
  let ds := cs.takeWhile Char.isDigit
  if ds.isEmpty then none else some (digitsVal 0 ds)

/-- JavaScript `parseInt(s, 10)` on a character list; `none` models NaN. -/
def parseIntChars (cs0 : List Char) : Option Int :=
  let cs := cs0.dropWhile jsWhitespace
  match cs with
  | [] => none
  | c :: rest =>
    if c = '-' then (parseUnsigned rest).map (fun n => -(n : Int))
    else if c = '+' then (parseUnsigned rest).map (fun n => (n : Int))
    else (parseUnsigned (c :: rest)).map (fun n => (n : Int))

/-- JavaScript `parseInt(s, 10)` on a string. -/
def parseIntJS (s : String) : Option Int :=
  parseIntChars s.data

/-- The decimal digit character for `m < 10`. -/
def digitChar (m : Nat) : Char := Char.ofNat (m + 48)

/-- Big-endian decimal digits of `n` prepended to `acc` (empty for 0). -/
def natDigitsAux (n : Nat) (acc : List Char) : List Char :=
  if h : n = 0 then acc
  else natDigitsAux (n / 10) (digitChar (n % 10) :: acc)
termination_by n
decreasing_by exact Nat.div_lt_self (Nat.pos_of_ne_zero h) (by decide)

/-- Fuel-based (structurally recursive, hence kernel-reducible) variant
of `natDigitsAux`; `fuel ≥ n` suffices. -/
def natDigitsCore : Nat → Nat → List Char → List Char
  | 0, _, acc => acc
  | fuel + 1, n, acc =>
    if n = 0 then acc
    else natDigitsCore fuel (n / 10) (digitChar (n % 10) :: acc)

/-- Decimal digit characters of `n`, as JavaScript renders a number. -/
def natToDecList (n : Nat) : List Char :=
  if n = 0 then ['0'] else natDigitsCore n n []

/-- JavaScript decimal rendering of a natural number. -/
def natToDec (n : Nat) : String := String.mk (natToDecList n)

/-- JavaScript decimal rendering of an integer. -/
def intToDec (i : Int) : String :=
  if i < 0 then "-" ++ natToDec (-i).toNat else natToDec i.toNat

/-- Template interpolation of a JS number that may be NaN. -/
def numStr : Option Int → String
  | none => "NaN"
  | some i => intToDec i

/-- JavaScript `String.prototype.split` on a one-character separator. -/
def splitOnChar (sep : Char) : List Char → List (List Char)
  | [] => [[]]
  | c :: cs =>
    let r := splitOnChar sep cs
    if c = sep then [] :: r
    else
      match r with
      | [] => [[c]]
      | h :: t => (c :: h) :: t

/-- JavaScript `String.prototype.replace` with a plain pattern:
removes the first occurrence of `pat` (replacement is empty here). -/
def stripFirst (pat : List Char) : List Char → List Char
  | [] => []
  | c :: cs =>
    if pat.isPrefixOf (c :: cs) then (c :: cs).drop pat.length
    else c :: stripFirst pat cs

/-- `parseInt(q) || 0`: the version index used by the audio and download
routes (absent query or NaN gives 0; note `0 || 0 = 0`). -/
def jsVersionIndex (q : Option String) : Int :=
  match q with
  | none => 0
  | some s =>
    match parseIntJS s with
    | none => 0
    | some v => v

/-- JavaScript array indexing `l[i]` on a possibly-null-valued array:
out-of-bounds and null entries both read back as a non-value. -/
def jsIndex (l : List (Option String)) (i : Int) : Option String :=
  if i < 0 then none else ((l.get? i.toNat).join)

/-- `startsWith` implemented over the character lists. -/
def strStartsWith (s pre : String) : Bool :=
  pre.data.isPrefixOf s.data

/-- String equality as JavaScript `===`, over the character lists. -/
def strEqB (a b : String) : Bool :=
  a.data == b.data

/-- Join a list of strings with a separator. -/
def strJoinSep (sep : String) (l : List String) : String :=
  String.mk (List.intercalate sep.data (l.map String.data))

/-- ASCII lower-casing of one character. -/
def asciiLowerChar (c : Char) : Char :=
  if 65 ≤ c.toNat && c.toNat ≤ 90 then Char.ofNat (c.toNat + 32) else c

/-- `String.prototype.toLowerCase` on the ASCII range the code meets. -/
def asciiLower (s : String) : String :=
  String.mk (s.data.map asciiLowerChar)

/-! ## Node `path` module (POSIX) -/

/-- One step of POSIX path normalization over components, for paths rooted
at `/` (a `..` at the root is dropped, as `path.resolve` does). -/
def normStep (acc : List String) (c : String) : List String :=
  if c = "" || c = "." then acc
  else if c = ".." then acc.tail
  else c :: acc

/-- Components of a path string, split on `/`. -/
def pathComponents (s : String) : List String :=
  (splitOnChar '/' s.data).map String.mk

/-- Node `path.resolve(cwd, p)` on POSIX: make absolute, then normalize. -/
def resolvePath (cwd p : String) : String :=
  let full := if strStartsWith p "/" then p else cwd ++ "/" ++ p
  let comps := (pathComponents full).foldl normStep []
  "/" ++ strJoinSep "/" comps.reverse

/-- Node `path.join(a, b)` on POSIX, for an absolute `a` (the only way the
server calls it): concatenate and normalize. -/
def joinPath (a b : String) : String :=
  resolvePath a b

/-- Last nonempty component of a path (Node `path.basename` without the
extension argument, on the inputs the server passes). -/
def lastComponent (p : String) : String :=
  ((pathComponents p).filter (fun c => c ≠ "")).getLastD ""

/-- The suffix of `cs` starting at its last dot, if any. -/
def afterLastDot : List Char → Option (List Char)
  | [] => none
  | c :: cs =>
    match afterLastDot cs with
    | some r => some r
    | none => if c = '.' then some (c :: cs) else none

/-- Node `path.extname`: the extension of the basename, empty when the
basename has no dot, starts with its only dot, or is `..`. -/
def extname (p : String) : String :=
  let b := lastComponent p
  if b = ".." then ""
  else
    match afterLastDot b.data with
    | none => ""
    | some r => if r.length = b.data.length then "" else String.mk r

/-- Node `path.basename(p, ext)`: the basename with a trailing `ext`
stripped when it is a proper suffix. -/
def basenameDropExt (p ext : String) : String :=
  let b := lastComponent p
  if ext ≠ "" && b ≠ ext && ext.data.isSuffixOf b.data then
    String.mk (b.data.take (b.data.length - ext.data.length))
  else b

/-- Contiguous-substring test on character lists. -/
def containsSub (needle : List Char) : List Char → Bool
  | [] => needle.isEmpty
  | c :: cs => needle.isPrefixOf (c :: cs) || containsSub needle cs

/-- JavaScript `String.prototype.includes`. -/
def strIncludes (hay needle : String) : Bool :=
  containsSub needle.data hay.data

/-! ## PathGuard: the security validation layer -/

/-- Security: allowed file extensions. -/
def ALLOWED_EXTENSIONS : List String := [".mp3", ".wav", ".flac", ".aiff"]

/-- `uploads` directory under the process working directory. -/
def uploadsDir (cwd : String) : String := joinPath cwd "uploads"

/-- `results` directory under the process working directory. -/
def resultDir (cwd : String) : String := joinPath cwd "results"

/-- Security: allowed directories for file operations. -/
def ALLOWED_DIRECTORIES (cwd : String) : List String :=
  [resolvePath cwd (uploadsDir cwd), resolvePath cwd (resultDir cwd)]

/-- `validateAndSanitizePath`: resolve the path, require it inside an
allowed directory, require an allowed extension, and reject when the
resolved path contains `..` or `~`; return the resolved path on success
and `none` (null) on rejection. -/
def validateAndSanitizePath (cwd filePath : String) : Option String :=
  let resolvedPath := resolvePath cwd filePath
  let isInAllowedDirectory := (ALLOWED_DIRECTORIES cwd).any (fun allowedDir =>
    strStartsWith resolvedPath (allowedDir ++ "/") || strEqB resolvedPath allowedDir)
  if !isInAllowedDirectory then none
  else
    let fileExtension := asciiLower (extname resolvedPath)
    if !(ALLOWED_EXTENSIONS.contains fileExtension) then none
    else if strIncludes resolvedPath ".." || strIncludes resolvedPath "~" then none
    else some resolvedPath

/-- Characters replaced by `_` when sanitizing an output filename. -/
def dangerousChars : List Char := ['/', '\\', ':', '*', '?', '"', '<', '>', '|']

/-- Filename sanitization in `createSafeOutputPath`. -/
def sanitizeFilename (f : String) : String :=
  String.mk (f.data.map (fun c => if dangerousChars.contains c then '_' else c))

/-- `createSafeOutputPath`: sanitize the filename, require the base
directory under an allowed directory, join, and validate the result. -/
def createSafeOutputPath (cwd baseDir filename : String) : Option String :=
  let sanitizedFilename := sanitizeFilename filename
  let resolvedBaseDir := resolvePath cwd baseDir
  let isAllowedBaseDir := (ALLOWED_DIRECTORIES cwd).any
    (fun allowedDir => strStartsWith resolvedBaseDir allowedDir)
  if !isAllowedBaseDir then none
  else validateAndSanitizePath cwd (joinPath resolvedBaseDir sanitizedFilename)

/-! ## Data model: tracks, updates, processing settings -/

/-- Processing settings accepted by `processingSettingsSchema`. -/
structure ProcessingSettings where
  introLength : Int
  outroLength : Int
  preserveVocals : Bool
  beatDetection : String
deriving Repr, DecidableEq

/-- A persisted audio track record. Nullable columns are `Option`s; the
json array columns may be absent/null (`none`) or hold arrays whose
entries may themselves be null. -/
structure AudioTrack where
  id : Nat
  userId : Nat
  originalFilename : String
  originalPath : String
  format : Option String
  bitrate : Option Int
  duration : Option Int
  bpm : Option Int
  key : Option String
  status : String
  settings : Option ProcessingSettings
  extendedPaths : Option (List (Option String))
  extendedDurations : Option (List (Option Int))
  versionCount : Nat
deriving Repr, DecidableEq

/-- A partial update passed to `storage.updateAudioTrack`: `none` fields
are left untouched, `some` fields overwrite the whole column. -/
structure TrackUpdate where
  status : Option String := none
  settings : Option ProcessingSettings := none
  extendedPaths : Option (List (Option String)) := none
  extendedDurations : Option (List (Option Int)) := none
  versionCount : Option Nat := none
deriving Repr, DecidableEq

/-- Apply a partial update to a track record (drizzle `update ... set`). -/
def applyUpdate (t : AudioTrack) (u : TrackUpdate) : AudioTrack :=
  { t with
    status := u.status.getD t.status
    settings := match u.settings with
      | some s => some s
      | none => t.settings
    extendedPaths := match u.extendedPaths with
      | some l => some l
      | none => t.extendedPaths
    extendedDurations := match u.extendedDurations with
      | some l => some l
      | none => t.extendedDurations
    versionCount := u.versionCount.getD t.versionCount }

/-- The update written by the success continuation of the processing job,
computed from the re-fetched track: append the new path and its duration
as one pair, mark completed, and bump `versionCount` via the JS
expression `(track.versionCount || 1) + 1` (0 is falsy). -/
def successUpdate (track : AudioTrack) (outputPath : String)
    (extendedDuration : Option Int) : TrackUpdate :=
  let currentPaths := track.extendedPaths.getD []
  let currentDurations := track.extendedDurations.getD []
  { status := some "completed"
    extendedPaths := some (currentPaths ++ [some outputPath])
    extendedDurations := some (currentDurations ++ [extendedDuration])
    versionCount := some ((if track.versionCount = 0 then 1 else track.versionCount) + 1) }

/-- The update written by the `.catch` handler of the processing job. -/
def failureUpdate : TrackUpdate := { status := some "error" }

/-- One external-tool invocation recorded as an effect. -/
structure Dispatch where
  script : String
  args : List String
deriving Repr, DecidableEq

/-- The background continuation of one dispatched processing job,
given whether the `audioProcessor.py` invocation succeeded, the
re-fetched track (on the success path) and the duration parsed from the
follow-up analysis. Returns the single storage update it writes and the
further subprocess invocations it makes. A missing track on re-fetch
throws inside `.then`, which lands in `.catch` and writes the error
update; a failed tool invocation writes only the error update and
dispatches nothing further (no retry). -/
def backgroundJobStep (toolOk : Bool) (refetch : Option AudioTrack)
    (outputPath : String) (analysisDuration : Option Int) :
    TrackUpdate × List Dispatch :=
  if toolOk then
    match refetch with
    | none => (failureUpdate, [⟨"utils.py", [outputPath]⟩])
    | some track => (successUpdate track outputPath analysisDuration,
        [⟨"utils.py", [outputPath]⟩])
  else (failureUpdate, [])

/-! ## The process route handler -/

/-- An HTTP json response: status code and message. -/
structure HttpResponse where
  status : Nat
  message : String
deriving Repr, DecidableEq

/-- Result of the `POST /api/tracks/:id/process` handler: the response,
the storage updates it performed in order, and the background job it
dispatched, if any. -/
structure ProcessResult where
  response : HttpResponse
  updates : List TrackUpdate
  dispatch : Option Dispatch
deriving Repr, DecidableEq

/-- The deterministic output filename for the next extended version:
`{base}_extended_v{version+1}{ext}` where `version` is the current length
of `extendedPaths`. -/
def nextOutputFilename (track : AudioTrack) : String :=
  let outputBase := basenameDropExt track.originalFilename (extname track.originalFilename)
  let fileExt := extname track.originalFilename
  let version := (track.extendedPaths.getD []).length
  outputBase ++ "_extended_v" ++ natToDec (version + 1) ++ fileExt

/-- `POST /api/tracks/:id/process` after the id parse: version-limit
check, settings validation (`none` models a schema parse throw, caught as
a 500), status/settings update, safe output-path computation, then
dispatch of the background job with the original and output paths and the
settings as arguments. -/
def processTrackRequest (cwd : String) (track : AudioTrack)
    (parsedSettings : Option ProcessingSettings) : ProcessResult :=
  if track.versionCount > 3 then
      ⟨⟨400, "Maximum version limit (3) reached"⟩, [], none⟩
    else
      match parsedSettings with
      | none => ⟨⟨500, "Error processing track"⟩, [], none⟩
      | some settings =>
        let paths := track.extendedPaths.getD []
        let statusUpdate : TrackUpdate :=
          { status := some (if paths.length > 0 then "regenerate" else "processing")
            settings := some settings }
        let safeFilename := nextOutputFilename track
        match createSafeOutputPath cwd (resultDir cwd) safeFilename with
        | none =>
          ⟨⟨400, "Invalid output path - unable to create safe file path"⟩,
            [statusUpdate], none⟩
        | some outputPath =>
          ⟨⟨202, "Processing started"⟩, [statusUpdate],
            some ⟨"audioProcessor.py",
              [track.originalPath, outputPath,
               intToDec settings.introLength, intToDec settings.outroLength,
               (if settings.preserveVocals then "true" else "false"),
               settings.beatDetection]⟩⟩

/-- `POST /api/tracks/:id/process` after the id parse: 404 when the track
record is absent, otherwise the limit/settings/path pipeline above. -/
def processHandler (cwd : String) (track? : Option AudioTrack)
    (parsedSettings : Option ProcessingSettings) : ProcessResult :=
  match track? with
  | none => ⟨⟨404, "Track not found"⟩, [], none⟩
  | some track => processTrackRequest cwd track parsedSettings

/-- `POST /api/tracks/:id/process` including the id parse (`parseInt` of
the route parameter; NaN is a 400). -/
def processRoute (cwd : String) (getTrack : Int → Option AudioTrack)
    (idParam : String) (parsedSettings : Option ProcessingSettings) : ProcessResult :=
  match parseIntJS idParam with
  | none => ⟨⟨400, "Invalid track ID"⟩, [], none⟩
  | some id => processHandler cwd (getTrack id) parsedSettings

/-- Sequential replay of a list of successful processing jobs: each job
re-fetches the current record and applies its success update. -/
def runJobs (t : AudioTrack) (jobs : List (String × Option Int)) : AudioTrack :=
  jobs.foldl (fun tr pd => applyUpdate tr (successUpdate tr pd.1 pd.2)) t

/-! ## Audio streaming and download handlers -/

/-- A filesystem touch performed by a handler, in order. -/
inductive FsAccess where
  | existsCheck (path : String)
  | statSize (path : String)
  | readStream (path : String)
  | download (path : String)
deriving Repr, DecidableEq

/-- The path an `FsAccess` touches. -/
def FsAccess.path : FsAccess → String
  | .existsCheck p => p
  | .statSize p => p
  | .readStream p => p
  | .download p => p

/-- An HTTP response of the audio/download routes, with the headers the
claims talk about. `contentLength` is `none` when the header is not set
by the handler and `some none` when it is set to NaN. -/
structure AudioResponse where
  status : Nat
  contentLength : Option (Option Int)
  contentRange : Option String
  acceptRanges : Option String
  downloadName : Option String
  message : Option String
deriving Repr, DecidableEq

/-- A plain error/json response of the audio and download routes. -/
def errResponse (status : Nat) (message : String) : AudioResponse :=
  { status := status, contentLength := none, contentRange := none,
    acceptRanges := none, downloadName := none, message := some message }

/-- The abstract filesystem: size of the file at a path, `none` when the
path does not exist (`fs.existsSync` false). -/
def FileSystem : Type := String → Option Nat

/-- Parse of the `Range` header against a known file size:
`range.replace(/bytes=/, "").split("-")`, `parseInt(parts[0], 10)` and
`parts[1] ? parseInt(parts[1], 10) : fileSize - 1`. -/
def parseRange (fileSize : Nat) (range : String) : Option Int × Option Int :=
  let parts := splitOnChar '-' (stripFirst "bytes=".data range.data)
  let start := parseIntChars (parts.headD [])
  let endv :=
    match parts.get? 1 with
    | some p => if p.isEmpty then some ((fileSize : Int) - 1) else parseIntChars p
    | none => some ((fileSize : Int) - 1)
  (start, endv)

/-- Whether `fs.createReadStream(path, { start, end })` throws
`ERR_OUT_OF_RANGE` synchronously: Node validates that `start` and `end`
are nonnegative integers (NaN fails validation) and that `start ≤ end`.
The route's try/catch turns this throw into a 500 response, since the
stream is created before the 206 head is written. -/
def readStreamThrows (start endv : Option Int) : Bool :=
  match start, endv with
  | some a, some b => a < 0 || b < 0 || a > b
  | _, _ => true

/-- The 206 partial-content response of the range branch, written when
the stream creation succeeded: chunk size is `end - start + 1` and
`Content-Range` is `bytes {start}-{end}/{size}`, with no handler-level
validation of the parsed bounds (in particular no check of
`end < fileSize` and no 416 path). -/
def rangeResponse (fileSize : Nat) (range : String) : AudioResponse :=
  let se := parseRange fileSize range
  let chunksize : Option Int :=
    match se.1, se.2 with
    | some a, some b => some (b - a + 1)
    | _, _ => none
  { status := 206
    contentLength := some chunksize
    contentRange := some ("bytes " ++ numStr se.1 ++ "-" ++ numStr se.2 ++ "/"
      ++ natToDec fileSize)
    acceptRanges := some "bytes"
    downloadName := none
    message := none }

/-- The file path the audio route resolves from the track record:
`originalPath` for type `original`, `extendedPaths[version]` for type
`extended`. -/
def requestedPath (track : AudioTrack) (typeParam : String)
    (versionQuery : Option String) : Option String :=
  if typeParam = "extended" then
    jsIndex (track.extendedPaths.getD []) (jsVersionIndex versionQuery)
  else some track.originalPath

/-- `GET /api/audio/:id/:type` after the id parse: type check, record
lookup, version resolution, PathGuard validation, existence check, stat
and streaming with optional single byte range. Returns the response and
the ordered filesystem accesses performed. -/
def streamPath (cwd : String) (fsSize : FileSystem) (typeParam fp : String)
    (rangeHeader : Option String) : AudioResponse × List FsAccess :=
  if fp = "" then (errResponse 404 (typeParam ++ " audio file not found"), [])
  else
    match validateAndSanitizePath cwd fp with
    | none => (errResponse 400 "Invalid file path - path validation failed", [])
    | some safePath =>
      match fsSize safePath with
      | none => (errResponse 404 "Audio file not found on disk",
          [FsAccess.existsCheck safePath])
      | some fileSize =>
        match rangeHeader with
        | some range =>
          if readStreamThrows (parseRange fileSize range).1
              (parseRange fileSize range).2 then
            (errResponse 500 "Error streaming audio",
             [FsAccess.existsCheck safePath, FsAccess.statSize safePath])
          else
            (rangeResponse fileSize range,
             [FsAccess.existsCheck safePath, FsAccess.statSize safePath,
              FsAccess.readStream safePath])
        | none =>
          ({ status := 200, contentLength := some (some (fileSize : Int)),
             contentRange := none, acceptRanges := none,
             downloadName := none, message := none },
           [FsAccess.existsCheck safePath, FsAccess.statSize safePath,
            FsAccess.readStream safePath])

def audioTrackResponse (cwd : String) (fsSize : FileSystem) (track : AudioTrack)
    (typeParam : String) (versionQuery rangeHeader : Option String) :
    AudioResponse × List FsAccess :=
  match requestedPath track typeParam versionQuery with
  | none => (errResponse 404 (typeParam ++ " audio file not found"), [])
  | some fp => streamPath cwd fsSize typeParam fp rangeHeader

/-- `GET /api/audio/:id/:type` after the id parse: type check and record
lookup in front of `audioTrackResponse`. -/
def audioHandler (cwd : String) (fsSize : FileSystem) (track? : Option AudioTrack)
    (typeParam : String) (versionQuery rangeHeader : Option String) :
    AudioResponse × List FsAccess :=
  if typeParam ≠ "original" && typeParam ≠ "extended" then
    (errResponse 400 "Invalid audio type", [])
  else
    match track? with
    | none => (errResponse 404 "Track not found", [])
    | some track => audioTrackResponse cwd fsSize track typeParam versionQuery rangeHeader

/-- `GET /api/audio/:id/:type` including the id parse. -/
def audioRoute (cwd : String) (fsSize : FileSystem)
    (getTrack : Int → Option AudioTrack) (idParam typeParam : String)
    (versionQuery rangeHeader : Option String) : AudioResponse × List FsAccess :=
  match parseIntJS idParam with
  | none => (errResponse 400 "Invalid track ID", [])
  | some id =>
    audioHandler cwd fsSize (getTrack id) typeParam versionQuery rangeHeader

/-- `GET /api/tracks/:id/download` after the id parse: version bound and
null check, PathGuard validation, existence check, then `res.download`
with the derived `{base}_extended_v{version+1}{ext}` attachment name. -/
def downloadTrackResponse (cwd : String) (fsSize : FileSystem)
    (track : AudioTrack) (versionQuery : Option String) :
    AudioResponse × List FsAccess :=
    match jsIndex (track.extendedPaths.getD []) (jsVersionIndex versionQuery) with
    | none => (errResponse 404 "Extended version not found", [])
    | some fp =>
      if jsVersionIndex versionQuery ≥ (((track.extendedPaths.getD []).length : Nat) : Int)
          || fp = "" then
        (errResponse 404 "Extended version not found", [])
      else
        match validateAndSanitizePath cwd fp with
        | none => (errResponse 400 "Invalid file path - path validation failed", [])
        | some safePath =>
          match fsSize safePath with
          | none => (errResponse 404 "Extended audio file not found on disk",
              [FsAccess.existsCheck safePath])
          | some _ =>
            ({ status := 200, contentLength := none, contentRange := none,
               acceptRanges := none,
               downloadName := some (basenameDropExt track.originalFilename
                 (extname track.originalFilename) ++ "_extended_v"
                 ++ intToDec (jsVersionIndex versionQuery + 1)
                 ++ extname track.originalFilename),
               message := none },
             [FsAccess.existsCheck safePath, FsAccess.download safePath])

/-- `GET /api/tracks/:id/download` after the id parse: 404 on a missing
record, then `downloadTrackResponse`. -/
def downloadHandler (cwd : String) (fsSize : FileSystem)
    (track? : Option AudioTrack) (versionQuery : Option String) :
    AudioResponse × List FsAccess :=
  match track? with
  | none => (errResponse 404 "Track not found", [])
  | some track => downloadTrackResponse cwd fsSize track versionQuery

/-- `GET /api/tracks/:id/download` including the id parse. -/
def downloadRoute (cwd : String) (fsSize : FileSystem)
    (getTrack : Int → Option AudioTrack) (idParam : String)
    (versionQuery : Option String) : AudioResponse × List FsAccess :=
  match parseIntJS idParam with
  | none => (errResponse 400 "Invalid track ID", [])
  | some id => downloadHandler cwd fsSize (getTrack id) versionQuery

/-! ## Concrete records used by the witnesses and counterexamples -/

/-- A representative upload: fresh track, no extended versions yet. -/
def freshTrack : AudioTrack :=
  { id := 1, userId := 1, originalFilename := "song.mp3",
    originalPath := "/app/uploads/1712345678-42.mp3",
    format := some "mp3", bitrate := none, duration := some 180, bpm := none,
    key := none, status := "uploaded", settings := none,
    extendedPaths := some [], extendedDurations := some [], versionCount := 0 }

/-- Representative processing settings. -/
def demoSettings : ProcessingSettings :=
  { introLength := 10, outroLength := 5, preserveVocals := true,
    beatDetection := "auto" }

/-- A filesystem with one 1000-byte file at the fresh track's path. -/
def demoFs : FileSystem :=
  fun p => if p = "/app/uploads/1712345678-42.mp3" then some 1000 else none

/-! ## Decimal rendering round-trip lemmas -/

theorem natDigitsAux_append (n : Nat) :
    ∀ acc : List Char, natDigitsAux n acc = natDigitsAux n [] ++ acc := by
  induction n using Nat.strong_induction_on with
  | _ n ih =>
    intro acc
    by_cases h : n = 0
    · subst h
      have h0 : ∀ acc0 : List Char, natDigitsAux 0 acc0 = acc0 := by
        intro acc0
        rw [natDigitsAux]
        simp
      rw [h0, h0]
      simp
    · have hd : n / 10 < n := Nat.div_lt_self (Nat.pos_of_ne_zero h) (by decide)
      rw [natDigitsAux]
      simp only [h, dite_false]
      rw [ih _ hd (digitChar (n % 10) :: acc)]
      conv_rhs => rw [natDigitsAux]
      simp only [h, dite_false]
      rw [ih _ hd [digitChar (n % 10)]]
      simp

theorem natDigitsCore_eq_aux :
    ∀ (fuel n : Nat), n ≤ fuel → ∀ acc, natDigitsCore fuel n acc = natDigitsAux n acc := by
  intro fuel
  induction fuel with
  | zero =>
    intro n h acc
    have hz : n = 0 := Nat.le_zero.mp h
    subst hz
    rw [natDigitsAux]
    rfl
  | succ f ih =>
    intro n h acc
    by_cases hz : n = 0
    · subst hz
      rw [natDigitsAux]
      rfl
    · have hlt : n / 10 ≤ f := by omega
      rw [natDigitsCore, if_neg hz, ih (n / 10) hlt]
      conv_rhs => rw [natDigitsAux]
      simp [hz]

theorem natToDecList_eq (n : Nat) :
    natToDecList n = if n = 0 then ['0'] else natDigitsAux n [] := by
  unfold natToDecList
  by_cases h : n = 0
  · simp [h]
  · simp only [h, ite_false]
    exact natDigitsCore_eq_aux n n (Nat.le_refl n) []

theorem digitChar_isDigit {m : Nat} (h : m < 10) : (digitChar m).isDigit = true := by
  interval_cases m <;> decide

theorem natDigitsAux_all_digits (n : Nat) :
    ∀ c ∈ natDigitsAux n [], c.isDigit = true := by
  induction n using Nat.strong_induction_on with
  | _ n ih =>
    intro c hc
    by_cases h : n = 0
    · rw [natDigitsAux] at hc
      simp [h] at hc
    · have hd : n / 10 < n := Nat.div_lt_self (Nat.pos_of_ne_zero h) (by decide)
      rw [natDigitsAux] at hc
      simp only [h, dite_false] at hc
      rw [natDigitsAux_append] at hc
      rcases List.mem_append.mp hc with h1 | h1
      · exact ih _ hd c h1
      · simp at h1
        subst h1
        exact digitChar_isDigit (Nat.mod_lt n (by decide))

theorem natToDecList_all_digits (n : Nat) :
    ∀ c ∈ natToDecList n, c.isDigit = true := by
  intro c hc
  rw [natToDecList_eq] at hc
  by_cases h : n = 0
  · simp [h] at hc
    subst hc
    decide
  · simp only [h, ite_false] at hc
    exact natDigitsAux_all_digits n c hc

theorem natDigitsAux_ne_nil {n : Nat} (h : n ≠ 0) : natDigitsAux n [] ≠ [] := by
  rw [natDigitsAux]
  simp only [h, dite_false]
  rw [natDigitsAux_append]
  simp

theorem natToDecList_ne_nil (n : Nat) : natToDecList n ≠ [] := by
  rw [natToDecList_eq]
  by_cases h : n = 0
  · simp [h]
  · simp only [h, ite_false]
    exact natDigitsAux_ne_nil h

theorem digitsVal_append (a : Nat) (xs ys : List Char) :
    digitsVal a (xs ++ ys) = digitsVal (digitsVal a xs) ys := by
  unfold digitsVal
  exact List.foldl_append _ _ _ _

theorem digitChar_toNat {m : Nat} (h : m < 10) : (digitChar m).toNat = m + 48 := by
  interval_cases m <;> decide

theorem digitsVal_natDigitsAux (n : Nat) :
    ∀ a, digitsVal a (natDigitsAux n []) = a * 10 ^ (natDigitsAux n []).length + n := by
  induction n using Nat.strong_induction_on with
  | _ n ih =>
    intro a
    by_cases h : n = 0
    · rw [natDigitsAux]
      simp [h, digitsVal]
    · have hd : n / 10 < n := Nat.div_lt_self (Nat.pos_of_ne_zero h) (by decide)
      conv_lhs => rw [natDigitsAux]
      conv_rhs => rw [natDigitsAux]
      simp only [h, dite_false]
      rw [natDigitsAux_append, digitsVal_append, ih _ hd a]
      have hmod : n % 10 < 10 := Nat.mod_lt n (by decide)
      have hv : digitsVal (a * 10 ^ (natDigitsAux (n / 10) []).length + n / 10)
          [digitChar (n % 10)]
          = (a * 10 ^ (natDigitsAux (n / 10) []).length + n / 10) * 10 + n % 10 := by
        unfold digitsVal
        simp [digitChar_toNat hmod]
      rw [hv]
      have hlen : (natDigitsAux (n / 10) [] ++ [digitChar (n % 10)]).length
          = (natDigitsAux (n / 10) []).length + 1 := by simp
      rw [hlen, pow_succ]
      set t := a * 10 ^ (natDigitsAux (n / 10) []).length with ht
      rw [← Nat.mul_assoc]
      omega

theorem isDigit_not_ws {c : Char} (h : c.isDigit = true) : jsWhitespace c = false := by
  unfold jsWhitespace
  simp only [Bool.or_eq_false_iff, decide_eq_false_iff_not]
  refine ⟨⟨⟨?_, ?_⟩, ?_⟩, ?_⟩ <;> rintro rfl <;> simp at h

theorem isDigit_not_sign {c : Char} (h : c.isDigit = true) : c ≠ '-' ∧ c ≠ '+' := by
  constructor <;> rintro rfl <;> simp at h

theorem isDigit_not_sep {c : Char} (h : c.isDigit = true) : c ≠ '-' :=
  (isDigit_not_sign h).1

theorem dropWhile_of_head_false {p : α → Bool} {c : α} {cs : List α}
    (h : p c = false) : (c :: cs).dropWhile p = c :: cs := by
  simp [List.dropWhile, h]

theorem takeWhile_all {p : α → Bool} {l : List α} (h : ∀ a ∈ l, p a = true) :
    l.takeWhile p = l := by
  induction l with
  | nil => rfl
  | cons c cs ih =>
    simp only [List.takeWhile]
    rw [h c (by simp)]
    simp [ih (fun a ha => h a (by simp [ha]))]

theorem parseUnsigned_all_digits {cs : List Char} (hne : cs ≠ [])
    (hd : ∀ c ∈ cs, c.isDigit = true) :
    parseUnsigned cs = some (digitsVal 0 cs) := by
  unfold parseUnsigned
  rw [takeWhile_all hd]
  simp [hne]

theorem parseIntChars_digits {cs : List Char} (hne : cs ≠ [])
    (hd : ∀ c ∈ cs, c.isDigit = true) :
    parseIntChars cs = some ((digitsVal 0 cs : Nat) : Int) := by
  obtain ⟨c, rest, rfl⟩ : ∃ c rest, cs = c :: rest := by
    cases cs with
    | nil => exact absurd rfl hne
    | cons c rest => exact ⟨c, rest, rfl⟩
  have hc : c.isDigit = true := hd c (by simp)
  have hdrop : List.dropWhile jsWhitespace (c :: rest) = c :: rest :=
    dropWhile_of_head_false (isDigit_not_ws hc)
  simp [parseIntChars, hdrop, (isDigit_not_sign hc).1, (isDigit_not_sign hc).2,
    parseUnsigned_all_digits hne hd]

theorem digitsVal_natToDecList (n : Nat) : digitsVal 0 (natToDecList n) = n := by
  rw [natToDecList_eq]
  by_cases h : n = 0
  · simp [h]
    decide
  · simp only [h, ite_false]
    rw [digitsVal_natDigitsAux n 0]
    simp

theorem parseIntChars_natToDecList (n : Nat) :
    parseIntChars (natToDecList n) = some (n : Int) := by
  rw [parseIntChars_digits (natToDecList_ne_nil n) (natToDecList_all_digits n),
    digitsVal_natToDecList]

theorem parseIntJS_natToDec (n : Nat) : parseIntJS (natToDec n) = some (n : Int) := by
  unfold parseIntJS natToDec
  exact parseIntChars_natToDecList n

theorem natToDecList_injective {a b : Nat} (h : natToDecList a = natToDecList b) :
    a = b := by
  have ha := parseIntChars_natToDecList a
  rw [h, parseIntChars_natToDecList b] at ha
  exact_mod_cast (Option.some.injEq _ _).mp ha.symm

theorem intToDec_natCast (n : Nat) : intToDec (n : Int) = natToDec n := by
  unfold intToDec
  rw [if_neg (by omega)]
  simp

/-! ## Split and replace lemmas for the Range header -/

theorem isPrefixOf_self_append (l r : List Char) : l.isPrefixOf (l ++ r) = true := by
  induction l with
  | nil => simp [List.isPrefixOf]
  | cons c cs ih => simp [List.isPrefixOf, ih]

theorem stripFirst_append (pat rest : List Char) :
    stripFirst pat (pat ++ rest) = rest := by
  cases hl : pat ++ rest with
  | nil =>
    rcases List.append_eq_nil.mp hl with ⟨h1, h2⟩
    subst h1
    subst h2
    rfl
  | cons c cs =>
    have hp : pat.isPrefixOf (c :: cs) = true := by
      rw [← hl]
      exact isPrefixOf_self_append pat rest
    rw [stripFirst, if_pos hp, ← hl, List.drop_left]

theorem splitOnChar_no_sep {sep : Char} {l : List Char}
    (h : ∀ c ∈ l, c ≠ sep) : splitOnChar sep l = [l] := by
  induction l with
  | nil => rfl
  | cons c cs ih =>
    rw [splitOnChar]
    simp only [h c (by simp)]
    rw [ih (fun a ha => h a (by simp [ha]))]
    simp

theorem splitOnChar_append_sep {sep : Char} {a : List Char} (b : List Char)
    (h : ∀ c ∈ a, c ≠ sep) :
    splitOnChar sep (a ++ sep :: b) = a :: splitOnChar sep b := by
  induction a with
  | nil =>
    rw [List.nil_append, splitOnChar]
    simp
  | cons c cs ih =>
    rw [List.cons_append, splitOnChar]
    simp only [h c (by simp)]
    rw [ih (fun x hx => h x (by simp [hx]))]
    simp

theorem natToDecList_no_dash (n : Nat) : ∀ c ∈ natToDecList n, c ≠ '-' :=
  fun c hc => isDigit_not_sep (natToDecList_all_digits n c hc)

theorem splitOnChar_ne_nil (sep : Char) (l : List Char) :
    splitOnChar sep l ≠ [] := by
  cases l with
  | nil => simp [splitOnChar]
  | cons c cs =>
    rw [splitOnChar]
    by_cases h : c = sep
    · simp [h]
    · simp only [h, ite_false]
      cases hr : splitOnChar sep cs <;> simp

theorem parseRange_closed (S s e : Nat) :
    parseRange S ("bytes=" ++ natToDec s ++ "-" ++ natToDec e)
      = (some (s : Int), some (e : Int)) := by
  have hdata : ("bytes=" ++ natToDec s ++ "-" ++ natToDec e).data
      = "bytes=".data ++ (natToDecList s ++ '-' :: natToDecList e) := by
    simp [natToDec, String.data_append]
  unfold parseRange
  rw [hdata, stripFirst_append,
    splitOnChar_append_sep (natToDecList e) (natToDecList_no_dash s),
    splitOnChar_no_sep (natToDecList_no_dash e)]
  simp [parseIntChars_natToDecList, natToDecList_ne_nil e]

theorem parseRange_open (S s : Nat) :
    parseRange S ("bytes=" ++ natToDec s ++ "-")
      = (some (s : Int), some ((S : Int) - 1)) := by
  have hdata : ("bytes=" ++ natToDec s ++ "-").data
      = "bytes=".data ++ (natToDecList s ++ '-' :: ([] : List Char)) := by
    simp [natToDec, String.data_append]
  unfold parseRange
  rw [hdata, stripFirst_append,
    splitOnChar_append_sep ([] : List Char) (natToDecList_no_dash s)]
  simp [parseIntChars_natToDecList, splitOnChar]

/-! ## Claim C1: PathGuard rejection conditions -/

/-- C1 (amended): `validateAndSanitizePath` returns `none` exactly when
the RESOLVED form of the input lies outside every allowed directory, has
a disallowed extension, or contains a `..` or `~` token (the token check
runs on the resolved path, not the raw input); on acceptance the result
is exactly the resolved path, never a coerced default. -/
theorem pathGuard_rejection (cwd p : String) :
    (validateAndSanitizePath cwd p = none ↔
      ((ALLOWED_DIRECTORIES cwd).any (fun allowedDir =>
          strStartsWith (resolvePath cwd p) (allowedDir ++ "/")
            || strEqB (resolvePath cwd p) allowedDir) = false
        ∨ ALLOWED_EXTENSIONS.contains (asciiLower (extname (resolvePath cwd p))) = false
        ∨ strIncludes (resolvePath cwd p) ".." = true
        ∨ strIncludes (resolvePath cwd p) "~" = true))
    ∧ (∀ r, validateAndSanitizePath cwd p = some r → r = resolvePath cwd p) := by
  cases h1 : (ALLOWED_DIRECTORIES cwd).any (fun allowedDir =>
      strStartsWith (resolvePath cwd p) (allowedDir ++ "/")
        || strEqB (resolvePath cwd p) allowedDir) with
  | false => simp [validateAndSanitizePath, h1]
  | true =>
    cases h2 : ALLOWED_EXTENSIONS.contains (asciiLower (extname (resolvePath cwd p))) with
    | false =>
      have h2m : asciiLower (extname (resolvePath cwd p)) ∉ ALLOWED_EXTENSIONS := by
        simpa using h2
      simp [validateAndSanitizePath, h1, h2, h2m]
    | true =>
      have h2m : asciiLower (extname (resolvePath cwd p)) ∈ ALLOWED_EXTENSIONS := by
        simpa using h2
      cases h3 : strIncludes (resolvePath cwd p) ".." with
      | true => simp [validateAndSanitizePath, h1, h2, h2m, h3]
      | false =>
        cases h4 : strIncludes (resolvePath cwd p) "~" with
        | true => simp [validateAndSanitizePath, h1, h2, h2m, h3, h4]
        | false => simp [validateAndSanitizePath, h1, h2, h2m, h3, h4]

/-- C1 counterexample: the raw input `uploads/../uploads/song.mp3`
contains a parent-directory token, yet the guard ACCEPTS it (it resolves
inside the uploads directory and the `..`/`~` check runs after
resolution), refuting the raw-input clause of the claim. -/
theorem pathGuard_raw_dotdot_accepted :
    strIncludes "uploads/../uploads/song.mp3" ".." = true
      ∧ validateAndSanitizePath "/app" "uploads/../uploads/song.mp3"
          = some "/app/uploads/song.mp3" := by
  constructor
  · decide
  · decide

/-- C1 witness: the amended characterization applied at a concrete
accepted path and a concrete rejected path. -/
theorem pathGuard_rejection_witness :
    validateAndSanitizePath "/app" "/app/uploads/a.mp3" = some "/app/uploads/a.mp3"
      ∧ validateAndSanitizePath "/app" "/etc/passwd.mp3" = none := by
  constructor
  · have h := (pathGuard_rejection "/app" "/app/uploads/a.mp3").2
    have hv : validateAndSanitizePath "/app" "/app/uploads/a.mp3"
        = some "/app/uploads/a.mp3" := by decide
    exact hv
  · exact (pathGuard_rejection "/app" "/etc/passwd.mp3").1.mpr (by decide)

/-! ## Claim C3: version-limit enforcement -/

set_option maxHeartbeats 2000000 in
/-- C3: given an existing track, the process handler answers with the
400 version-limit error and performs no storage update and no dispatch
exactly when `versionCount > 3`; in particular `versionCount = 4` is
rejected and `versionCount = 3` still passes the limit check and is
accepted. -/
theorem versionLimit_iff (cwd : String) (track : AudioTrack)
    (parsedSettings : Option ProcessingSettings) :
    (((processHandler cwd (some track) parsedSettings).response
          = ⟨400, "Maximum version limit (3) reached"⟩
        ∧ (processHandler cwd (some track) parsedSettings).updates = []
        ∧ (processHandler cwd (some track) parsedSettings).dispatch = none)
      ↔ track.versionCount > 3)
    ∧ (processHandler "/app" (some { freshTrack with versionCount := 4 })
        (some demoSettings)
          = ⟨⟨400, "Maximum version limit (3) reached"⟩, [], none⟩)
    ∧ (processHandler "/app" (some { freshTrack with versionCount := 3 })
        (some demoSettings)).response.status = 202 := by
  refine ⟨⟨?_, ?_⟩, by decide, by decide⟩
  · intro h
    by_contra hgt
    have hle : ¬ track.versionCount > 3 := hgt
    rcases h with ⟨hresp, -, -⟩
    replace hresp : (processTrackRequest cwd track parsedSettings).response
        = ⟨400, "Maximum version limit (3) reached"⟩ := hresp
    unfold processTrackRequest at hresp
    simp only [hle, if_false] at hresp
    cases hps : parsedSettings with
    | none => rw [hps] at hresp; simp at hresp
    | some s =>
      rw [hps] at hresp
      simp only at hresp
      cases hout : createSafeOutputPath cwd (resultDir cwd) (nextOutputFilename track) with
      | none => rw [hout] at hresp; simp at hresp
      | some op => rw [hout] at hresp; simp at hresp
  · intro h
    show (processTrackRequest cwd track parsedSettings).response
        = ⟨400, "Maximum version limit (3) reached"⟩
      ∧ (processTrackRequest cwd track parsedSettings).updates = []
      ∧ (processTrackRequest cwd track parsedSettings).dispatch = none
    unfold processTrackRequest
    simp [h]

set_option maxHeartbeats 2000000 in
/-- C3 witness: the characterization applied to a concrete track with
`versionCount = 4`. -/
theorem versionLimit_iff_witness :
    (processHandler "/app" (some { freshTrack with versionCount := 4 })
        (some demoSettings)).response = ⟨400, "Maximum version limit (3) reached"⟩ := by
  exact ((versionLimit_iff "/app" { freshTrack with versionCount := 4 }
    (some demoSettings)).1.mpr (by decide)).1

/-! ## Claims C4/C7: versionCount semantics and the failure path -/

/-- C7: a failed external tool invocation makes the background job write
exactly the `status = error` update — every other field of the track is
unchanged — and dispatch no further subprocess (no retry). -/
theorem failure_sets_error_only (t : AudioTrack) (refetch : Option AudioTrack)
    (outputPath : String) (analysisDuration : Option Int) :
    backgroundJobStep false refetch outputPath analysisDuration = (failureUpdate, [])
      ∧ applyUpdate t failureUpdate = { t with status := "error" } := by
  constructor
  · rfl
  · rfl

set_option maxHeartbeats 4000000 in
/-- C4 counterexample: on the fresh track, dispatch happens (202 plus a
background job), yet a failed tool invocation leaves `versionCount` at 0
(not incremented at dispatch), and a single successful job sets
`versionCount` to 2, not 1, because the success continuation computes
`(versionCount || 1) + 1` and 0 is falsy. -/
theorem versionCount_counterexample :
    (processHandler "/app" (some freshTrack) (some demoSettings)).response.status = 202
      ∧ (processHandler "/app" (some freshTrack) (some demoSettings)).dispatch
          = some ⟨"audioProcessor.py",
              ["/app/uploads/1712345678-42.mp3", "/app/results/song_extended_v1.mp3",
               "10", "5", "true", "auto"]⟩
      ∧ (applyUpdate
            (applyUpdate freshTrack
              ((processHandler "/app" (some freshTrack) (some demoSettings)).updates.headD {}))
            (backgroundJobStep false none "/app/results/song_extended_v1.mp3" none).1).versionCount
          = 0
      ∧ (applyUpdate
            (applyUpdate freshTrack
              ((processHandler "/app" (some freshTrack) (some demoSettings)).updates.headD {}))
            (successUpdate
              (applyUpdate freshTrack
                ((processHandler "/app" (some freshTrack) (some demoSettings)).updates.headD {}))
              "/app/results/song_extended_v1.mp3" (some 240))).versionCount
          = 2 := by
  refine ⟨by decide, by decide, by decide, by decide⟩

/-- C4 (amended): `versionCount` is bumped only by the success
continuation — a failed invocation leaves it unchanged — and the bump
computes `(versionCount || 1) + 1`, so one successful job on a fresh
track (`versionCount = 0`) yields `versionCount = 2`. -/
theorem versionCount_semantics :
    (∀ (t : AudioTrack) (r : Option AudioTrack) (p : String) (d : Option Int),
      (applyUpdate t (backgroundJobStep false r p d).1).versionCount = t.versionCount)
    ∧ (∀ (t : AudioTrack) (p : String) (d : Option Int),
        (applyUpdate t (successUpdate t p d)).versionCount
          = (if t.versionCount = 0 then 1 else t.versionCount) + 1)
    ∧ (∀ (t : AudioTrack) (p : String) (d : Option Int),
        t.versionCount = 0 →
          (applyUpdate t (successUpdate t p d)).versionCount = 2) := by
  refine ⟨fun t r p d => rfl, fun t p d => rfl, fun t p d h => ?_⟩
  simp [applyUpdate, successUpdate, h]

/-- C4 amended witness: the success bump applied to the fresh track. -/
theorem versionCount_semantics_witness :
    (applyUpdate freshTrack
      (successUpdate freshTrack "/app/results/song_extended_v1.mp3" (some 240))).versionCount
      = 2 :=
  versionCount_semantics.2.2 freshTrack "/app/results/song_extended_v1.mp3"
    (some 240) (by decide)

/-! ## Claim C5: the paired-array append invariant -/

theorem runJobs_spec (jobs : List (String × Option Int)) :
    ∀ (t : AudioTrack) (ps : List (Option String)) (ds : List (Option Int)),
      t.extendedPaths = some ps → t.extendedDurations = some ds →
      (runJobs t jobs).extendedPaths = some (ps ++ jobs.map (fun j => some j.1))
        ∧ (runJobs t jobs).extendedDurations = some (ds ++ jobs.map (fun j => j.2)) := by
  induction jobs with
  | nil =>
    intro t ps ds hp hd
    simp [runJobs, hp, hd]
  | cons j rest ih =>
    intro t ps ds hp hd
    have hstep : runJobs t (j :: rest)
        = runJobs (applyUpdate t (successUpdate t j.1 j.2)) rest := by
      simp [runJobs]
    have hp1 : (applyUpdate t (successUpdate t j.1 j.2)).extendedPaths
        = some (ps ++ [some j.1]) := by
      simp [applyUpdate, successUpdate, hp]
    have hd1 : (applyUpdate t (successUpdate t j.1 j.2)).extendedDurations
        = some (ds ++ [j.2]) := by
      simp [applyUpdate, successUpdate, hd]
    rw [hstep]
    have h2 := ih (applyUpdate t (successUpdate t j.1 j.2)) (ps ++ [some j.1])
      (ds ++ [j.2]) hp1 hd1
    simpa using h2

/-- C5: each success continuation appends exactly one (path, duration)
pair in a single update computed from the re-fetched record — so any
track whose two arrays have equal length keeps them equal — and replaying
N successful jobs from empty arrays leaves both arrays with length N, in
dispatch order. -/
theorem append_invariant :
    (∀ (t : AudioTrack) (p : String) (d : Option Int) (ps : List (Option String))
        (ds : List (Option Int)), t.extendedPaths = some ps →
        t.extendedDurations = some ds →
        (successUpdate t p d).extendedPaths = some (ps ++ [some p])
          ∧ (successUpdate t p d).extendedDurations = some (ds ++ [d])
          ∧ (ps.length = ds.length →
              ((applyUpdate t (successUpdate t p d)).extendedPaths.getD []).length
                = ((applyUpdate t (successUpdate t p d)).extendedDurations.getD []).length))
    ∧ (∀ (t : AudioTrack) (jobs : List (String × Option Int)),
        t.extendedPaths = some [] → t.extendedDurations = some [] →
        (runJobs t jobs).extendedPaths = some (jobs.map (fun j => some j.1))
          ∧ (runJobs t jobs).extendedDurations = some (jobs.map (fun j => j.2))
          ∧ ((runJobs t jobs).extendedPaths.getD []).length = jobs.length
          ∧ ((runJobs t jobs).extendedDurations.getD []).length = jobs.length) := by
  constructor
  · intro t p d ps ds hp hd
    refine ⟨by simp [successUpdate, hp], by simp [successUpdate, hd], ?_⟩
    intro hlen
    simp [applyUpdate, successUpdate, hp, hd, hlen]
  · intro t jobs hp hd
    have h := runJobs_spec jobs t [] [] hp hd
    refine ⟨by simpa using h.1, by simpa using h.2, ?_, ?_⟩
    · rw [h.1]
      simp
    · rw [h.2]
      simp

/-- C5 witness: two successful jobs on the fresh track leave both arrays
at length 2 with the outputs in dispatch order. -/
theorem append_invariant_witness :
    (runJobs freshTrack
        [("/app/results/song_extended_v1.mp3", some 252),
         ("/app/results/song_extended_v2.mp3", none)]).extendedPaths
      = some [some "/app/results/song_extended_v1.mp3",
          some "/app/results/song_extended_v2.mp3"]
    ∧ (runJobs freshTrack
        [("/app/results/song_extended_v1.mp3", some 252),
         ("/app/results/song_extended_v2.mp3", none)]).extendedDurations
      = some [some 252, none] := by
  have h := (append_invariant).2 freshTrack
    [("/app/results/song_extended_v1.mp3", some 252),
     ("/app/results/song_extended_v2.mp3", none)] (by decide) (by decide)
  exact ⟨h.1, h.2.1⟩

/-! ## Claim C9: deterministic output naming -/

theorem strData_append (a b : String) : (a ++ b).data = a.data ++ b.data := by
  cases a
  cases b
  rfl

theorem natToDec_injective {a b : Nat} (h : natToDec a = natToDec b) : a = b := by
  apply natToDecList_injective
  exact congrArg String.data h

set_option maxHeartbeats 4000000 in
/-- C9: the next output filename is computed as
`{base}_extended_v{k+1}{ext}` with `k = len(extendedPaths)` at request
time; tracks with the same original filename but different version counts
get different filenames (no collision); the request is rejected with the
400 invalid-output-path error and nothing is dispatched when the
PathGuard-validated output path cannot be created; and on the fresh track
two sequential requests (the second after the first job completed)
produce `..._extended_v1.mp3` then `..._extended_v2.mp3`. -/
theorem outputNaming :
    (∀ t : AudioTrack, nextOutputFilename t
        = basenameDropExt t.originalFilename (extname t.originalFilename)
          ++ "_extended_v" ++ natToDec ((t.extendedPaths.getD []).length + 1)
          ++ extname t.originalFilename)
    ∧ (∀ t1 t2 : AudioTrack, t1.originalFilename = t2.originalFilename →
        (t1.extendedPaths.getD []).length ≠ (t2.extendedPaths.getD []).length →
        nextOutputFilename t1 ≠ nextOutputFilename t2)
    ∧ (∀ (cwd : String) (t : AudioTrack) (s : ProcessingSettings),
        ¬ t.versionCount > 3 →
        createSafeOutputPath cwd (resultDir cwd) (nextOutputFilename t) = none →
        processHandler cwd (some t) (some s)
          = ⟨⟨400, "Invalid output path - unable to create safe file path"⟩,
              [{ status := some (if (t.extendedPaths.getD []).length > 0
                    then "regenerate" else "processing")
                 settings := some s }], none⟩)
    ∧ (processHandler "/app" (some freshTrack) (some demoSettings)).dispatch
        = some ⟨"audioProcessor.py",
            ["/app/uploads/1712345678-42.mp3", "/app/results/song_extended_v1.mp3",
             "10", "5", "true", "auto"]⟩
    ∧ (processHandler "/app"
          (some (applyUpdate
            (applyUpdate freshTrack
              ((processHandler "/app" (some freshTrack) (some demoSettings)).updates.headD {}))
            (successUpdate
              (applyUpdate freshTrack
                ((processHandler "/app" (some freshTrack) (some demoSettings)).updates.headD {}))
              "/app/results/song_extended_v1.mp3" (some 240))))
          (some demoSettings)).dispatch
        = some ⟨"audioProcessor.py",
            ["/app/uploads/1712345678-42.mp3", "/app/results/song_extended_v2.mp3",
             "10", "5", "true", "auto"]⟩
    ∧ ("/app/results/song_extended_v1.mp3" : String)
        ≠ "/app/results/song_extended_v2.mp3" := by
  refine ⟨fun t => rfl, ?_, ?_, by decide, by decide, by decide⟩
  · intro t1 t2 hf hk heq
    apply hk
    unfold nextOutputFilename at heq
    rw [hf] at heq
    have hd := congrArg String.data heq
    simp only [strData_append] at hd
    obtain ⟨h1, -⟩ := List.append_inj' hd rfl
    obtain ⟨-, h3⟩ := List.append_inj h1 rfl
    have h4 : ((t1.extendedPaths.getD []).length + 1)
        = ((t2.extendedPaths.getD []).length + 1) := natToDecList_injective h3
    omega
  · intro cwd t s hv hout
    show processTrackRequest cwd t (some s) = _
    unfold processTrackRequest
    simp [hv, hout]

set_option maxHeartbeats 2000000 in
/-- C9 witness: non-collision and path-failure rejection at concrete
tracks. -/
theorem outputNaming_witness :
    nextOutputFilename freshTrack
      ≠ nextOutputFilename { freshTrack with
          extendedPaths := some [some "/app/results/song_extended_v1.mp3"] }
    ∧ processHandler "/app" (some { freshTrack with originalFilename := "song.txt" })
        (some demoSettings)
        = ⟨⟨400, "Invalid output path - unable to create safe file path"⟩,
            [{ status := some "processing", settings := some demoSettings }], none⟩ := by
  constructor
  · exact outputNaming.2.1 freshTrack
      { freshTrack with extendedPaths := some [some "/app/results/song_extended_v1.mp3"] }
      rfl (by decide)
  · have h := outputNaming.2.2.1 "/app"
      { freshTrack with originalFilename := "song.txt" } demoSettings
      (by decide) (by decide)
    exact h

/-! ## Claim C8: unknown version selectors give 404, default index 0 -/

set_option maxHeartbeats 2000000 in
/-- C8: in both the audio streaming route (`type = extended`) and the
download route, a version selector whose index reads back no value from
`extendedPaths` (negative, out of bounds, or a null entry) yields a 404
response — never an out-of-bounds fault — and an unspecified selector
behaves exactly like index 0. -/
theorem unknownVersion404 (cwd : String) (fsSize : FileSystem) :
    (∀ (track : AudioTrack) (versionQuery rangeHeader : Option String),
      jsIndex (track.extendedPaths.getD []) (jsVersionIndex versionQuery) = none →
      (audioHandler cwd fsSize (some track) "extended" versionQuery rangeHeader).1.status
        = 404)
    ∧ (∀ (track : AudioTrack) (versionQuery : Option String),
        jsIndex (track.extendedPaths.getD []) (jsVersionIndex versionQuery) = none →
        (downloadHandler cwd fsSize (some track) versionQuery).1.status = 404)
    ∧ (∀ (track? : Option AudioTrack) (rangeHeader : Option String),
        audioHandler cwd fsSize track? "extended" none rangeHeader
          = audioHandler cwd fsSize track? "extended" (some "0") rangeHeader)
    ∧ (∀ track? : Option AudioTrack,
        downloadHandler cwd fsSize track? none
          = downloadHandler cwd fsSize track? (some "0")) := by
  have hv0 : jsVersionIndex (some "0") = 0 := by decide
  refine ⟨?_, ?_, ?_, ?_⟩
  · intro track versionQuery rangeHeader h
    have hreq : requestedPath track "extended" versionQuery = none := by
      unfold requestedPath
      simp [h]
    show (audioTrackResponse cwd fsSize track "extended" versionQuery rangeHeader).1.status
      = 404
    unfold audioTrackResponse
    rw [hreq]
    rfl
  · intro track versionQuery h
    show (downloadTrackResponse cwd fsSize track versionQuery).1.status = 404
    unfold downloadTrackResponse
    simp only [h]
    rfl
  · intro track? rangeHeader
    have h1 : jsVersionIndex none = 0 := rfl
    cases track? with
    | none => rfl
    | some track =>
      show audioTrackResponse cwd fsSize track "extended" none rangeHeader
        = audioTrackResponse cwd fsSize track "extended" (some "0") rangeHeader
      unfold audioTrackResponse requestedPath
      rw [h1, hv0]
  · intro track?
    have h1 : jsVersionIndex none = 0 := rfl
    cases track? with
    | none => rfl
    | some track =>
      show downloadTrackResponse cwd fsSize track none
        = downloadTrackResponse cwd fsSize track (some "0")
      unfold downloadTrackResponse
      rw [h1, hv0]

set_option maxHeartbeats 2000000 in
/-- C8 witness: version 5 on a track with two extended versions gives 404
on both routes. -/
theorem unknownVersion404_witness :
    (audioHandler "/app" demoFs
        (some { freshTrack with
          extendedPaths := some [some "/app/results/song_extended_v1.mp3",
            some "/app/results/song_extended_v2.mp3"] })
        "extended" (some "5") none).1.status = 404
    ∧ (downloadHandler "/app" demoFs
        (some { freshTrack with
          extendedPaths := some [some "/app/results/song_extended_v1.mp3",
            some "/app/results/song_extended_v2.mp3"] })
        (some "5")).1.status = 404 := by
  constructor
  · exact (unknownVersion404 "/app" demoFs).1
      { freshTrack with
        extendedPaths := some [some "/app/results/song_extended_v1.mp3",
          some "/app/results/song_extended_v2.mp3"] }
      (some "5") none (by decide)
  · exact (unknownVersion404 "/app" demoFs).2.1
      { freshTrack with
        extendedPaths := some [some "/app/results/song_extended_v1.mp3",
          some "/app/results/song_extended_v2.mp3"] }
      (some "5") (by decide)

/-! ## Claims C6/C10: byte-range streaming -/

theorem requestedPath_original (track : AudioTrack) (vq : Option String) :
    requestedPath track "original" vq = some track.originalPath := rfl

theorem numStr_natCast (n : Nat) : numStr (some ((n : Nat) : Int)) = natToDec n := by
  unfold numStr
  exact intToDec_natCast n

theorem streamPath_range_ok (cwd : String) (fsSize : FileSystem)
    (typeParam fp sp : String) (S : Nat) (range : String) (s e : Int)
    (hfp : fp ≠ "") (hval : validateAndSanitizePath cwd fp = some sp)
    (hfs : fsSize sp = some S) (hparse : parseRange S range = (some s, some e))
    (h0s : 0 ≤ s) (h0e : 0 ≤ e) (hse : s ≤ e) :
    (streamPath cwd fsSize typeParam fp (some range)).1 = rangeResponse S range := by
  unfold streamPath
  rw [if_neg hfp, hval]
  simp only [hfs]
  have hthrow : readStreamThrows (parseRange S range).1 (parseRange S range).2
      = false := by
    rw [hparse]
    unfold readStreamThrows
    simp only
    simp
    omega
  simp only [hthrow]
  rfl

theorem streamPath_range_throw (cwd : String) (fsSize : FileSystem)
    (typeParam fp sp : String) (S : Nat) (range : String)
    (hfp : fp ≠ "") (hval : validateAndSanitizePath cwd fp = some sp)
    (hfs : fsSize sp = some S)
    (hthrow : readStreamThrows (parseRange S range).1 (parseRange S range).2 = true) :
    streamPath cwd fsSize typeParam fp (some range)
      = (errResponse 500 "Error streaming audio",
          [FsAccess.existsCheck sp, FsAccess.statSize sp]) := by
  unfold streamPath
  rw [if_neg hfp, hval]
  simp only [hfs, hthrow]
  rfl

set_option maxHeartbeats 2000000 in
/-- C6 (amended): on an existing validated file of size S, a
`Range: bytes=s-e` header with a satisfiable range (`s ≤ e`) yields a 206
with `Accept-Ranges: bytes`, `Content-Range: bytes s-e/S` and
`Content-Length = e - s + 1`; a `bytes=s-` header defaults the end to
`S - 1` (so it needs `s ≤ S - 1`); an unsatisfiable range instead makes
`fs.createReadStream` throw before the 206 head is written, which the
route's catch answers with a 500; and no Range header yields a 200 with
`Content-Length = S`. -/
theorem rangeStreaming (cwd : String) (fsSize : FileSystem) (track : AudioTrack)
    (vq : Option String) (sp : String) (S s e : Nat)
    (hne : track.originalPath ≠ "")
    (hv : validateAndSanitizePath cwd track.originalPath = some sp)
    (hfs : fsSize sp = some S)
    (hse : s ≤ e) (hs1 : (s : Int) ≤ (S : Int) - 1) :
    (audioHandler cwd fsSize (some track) "original" vq
        (some ("bytes=" ++ natToDec s ++ "-" ++ natToDec e))).1
      = { status := 206
          contentLength := some (some ((e : Int) - (s : Int) + 1))
          contentRange := some ("bytes " ++ natToDec s ++ "-" ++ natToDec e
            ++ "/" ++ natToDec S)
          acceptRanges := some "bytes"
          downloadName := none
          message := none }
    ∧ (audioHandler cwd fsSize (some track) "original" vq
        (some ("bytes=" ++ natToDec s ++ "-"))).1
      = { status := 206
          contentLength := some (some ((S : Int) - 1 - (s : Int) + 1))
          contentRange := some ("bytes " ++ natToDec s ++ "-" ++ intToDec ((S : Int) - 1)
            ++ "/" ++ natToDec S)
          acceptRanges := some "bytes"
          downloadName := none
          message := none }
    ∧ (∀ s2 e2 : Int, parseRange S ("bytes=" ++ natToDec s ++ "-" ++ natToDec e)
          = (some s2, some e2) → 0 ≤ s2 ∧ 0 ≤ e2)
    ∧ (audioHandler cwd fsSize (some track) "original" vq none).1
      = { status := 200
          contentLength := some (some ((S : Nat) : Int))
          contentRange := none
          acceptRanges := none
          downloadName := none
          message := none } := by
  refine ⟨?_, ?_, ?_, ?_⟩
  · show (streamPath cwd fsSize "original" track.originalPath
      (some ("bytes=" ++ natToDec s ++ "-" ++ natToDec e))).1 = _
    rw [streamPath_range_ok cwd fsSize "original" track.originalPath sp S
      ("bytes=" ++ natToDec s ++ "-" ++ natToDec e) (s : Int) (e : Int)
      hne hv hfs (parseRange_closed S s e) (by omega) (by omega)
      (by exact_mod_cast hse)]
    unfold rangeResponse
    rw [parseRange_closed]
    simp only [numStr_natCast]
  · show (streamPath cwd fsSize "original" track.originalPath
      (some ("bytes=" ++ natToDec s ++ "-"))).1 = _
    rw [streamPath_range_ok cwd fsSize "original" track.originalPath sp S
      ("bytes=" ++ natToDec s ++ "-") (s : Int) ((S : Int) - 1)
      hne hv hfs (parseRange_open S s) (by omega) (by omega) hs1]
    unfold rangeResponse
    rw [parseRange_open]
    simp only [numStr_natCast, numStr]
    rw [intToDec_natCast]
  · intro s2 e2 hp
    rw [parseRange_closed] at hp
    have h1 : (s : Int) = s2 := by
      have := congrArg Prod.fst hp
      simpa using this
    have h2 : (e : Int) = e2 := by
      have := congrArg Prod.snd hp
      simpa using this
    omega
  · show (streamPath cwd fsSize "original" track.originalPath none).1 = _
    unfold streamPath
    rw [if_neg hne, hv]
    simp only [hfs]

set_option maxHeartbeats 2000000 in
/-- C6 counterexample: `Range: bytes=500-100` on the 1000-byte file does
NOT produce the 206 the claim asserts for every `bytes=start-end` header:
the stream constructor throws on the inverted range and the catch answers
500. -/
theorem rangeStreaming_counterexample :
    (audioHandler "/app" demoFs (some freshTrack) "original" none
        (some "bytes=500-100")).1.status = 500
    ∧ (audioHandler "/app" demoFs (some freshTrack) "original" none
        (some "bytes=500-100")).1
      = (errResponse 500 "Error streaming audio") := by
  constructor
  · decide
  · decide

set_option maxHeartbeats 2000000 in
/-- C6 witness: the 1000-byte example with `Range: bytes=100-199`. -/
theorem rangeStreaming_witness :
    (audioHandler "/app" demoFs (some freshTrack) "original" none
        (some "bytes=100-199")).1.status = 206
    ∧ (audioHandler "/app" demoFs (some freshTrack) "original" none
        (some "bytes=100-199")).1.contentLength = some (some 100)
    ∧ (audioHandler "/app" demoFs (some freshTrack) "original" none
        (some "bytes=100-199")).1.contentRange = some "bytes 100-199/1000"
    ∧ (audioHandler "/app" demoFs (some freshTrack) "original" none none).1.status = 200
    ∧ (audioHandler "/app" demoFs (some freshTrack) "original" none
        none).1.contentLength = some (some 1000) := by
  have h := rangeStreaming "/app" demoFs freshTrack none
    "/app/uploads/1712345678-42.mp3" 1000 100 199 (by decide) (by decide) (by decide)
    (by decide) (by decide)
  have hs : ("bytes=" ++ natToDec 100 ++ "-" ++ natToDec 199) = "bytes=100-199" := by
    decide
  have h1 := h.1
  rw [hs] at h1
  have h3 := h.2.2.2
  refine ⟨?_, ?_, ?_, ?_, ?_⟩
  · rw [h1]
  · rw [h1]
    decide
  · rw [h1]
    decide
  · rw [h3]
  · rw [h3]
    decide

set_option maxHeartbeats 4000000 in
/-- C10 (amended): the audio handler never answers 416 and performs no
bounds check of its own: whenever the Range header parses to integers
`0 ≤ start ≤ end` on an existing validated file it answers 206 with
`Content-Length = end - start + 1` even when `end` is at or past the end
of the file — concretely `bytes=100-4999` on the 1000-byte file gives 206
with Content-Length 4900 and a Content-Range exceeding the file size. An
inverted range, however, is not served: `fs.createReadStream` throws
`ERR_OUT_OF_RANGE` synchronously before `writeHead` and the catch answers
500, as `bytes=500-100` shows. -/
theorem rangeUnvalidated (cwd : String) (fsSize : FileSystem) :
    (∀ (track? : Option AudioTrack) (typeParam : String)
        (vq rh : Option String),
      (audioHandler cwd fsSize track? typeParam vq rh).1.status ≠ 416)
    ∧ (∀ (track : AudioTrack) (typeParam : String) (vq : Option String)
        (range fp sp : String) (S : Nat) (s e : Int),
        (typeParam = "original" ∨ typeParam = "extended") →
        requestedPath track typeParam vq = some fp → fp ≠ "" →
        validateAndSanitizePath cwd fp = some sp → fsSize sp = some S →
        parseRange S range = (some s, some e) →
        0 ≤ s → 0 ≤ e → s ≤ e →
        (audioHandler cwd fsSize (some track) typeParam vq (some range)).1.status = 206
          ∧ (audioHandler cwd fsSize (some track) typeParam vq
              (some range)).1.contentLength = some (some (e - s + 1)))
    ∧ (audioHandler "/app" demoFs (some freshTrack) "original" none
        (some "bytes=100-4999")).1.status = 206
    ∧ (audioHandler "/app" demoFs (some freshTrack) "original" none
        (some "bytes=100-4999")).1.contentLength = some (some 4900)
    ∧ (audioHandler "/app" demoFs (some freshTrack) "original" none
        (some "bytes=100-4999")).1.contentRange = some "bytes 100-4999/1000"
    ∧ (audioHandler "/app" demoFs (some freshTrack) "original" none
        (some "bytes=500-100")).1.status = 500 := by
  refine ⟨?_, ?_, by decide, by decide, by decide, by decide⟩
  · intro track? typeParam vq rh
    unfold audioHandler
    split
    · simp [errResponse]
    · cases track? with
      | none => simp [errResponse]
      | some track =>
        show (audioTrackResponse cwd fsSize track typeParam vq rh).1.status ≠ 416
        unfold audioTrackResponse
        cases hreq : requestedPath track typeParam vq with
        | none => simp [errResponse]
        | some fp =>
          show (streamPath cwd fsSize typeParam fp rh).1.status ≠ 416
          unfold streamPath
          by_cases hfp : fp = ""
          · simp [hfp, errResponse]
          · simp only [hfp, if_false, ite_false]
            cases hval : validateAndSanitizePath cwd fp with
            | none => simp [errResponse]
            | some sp2 =>
              simp only
              cases hfs2 : fsSize sp2 with
              | none => simp [hfs2, errResponse]
              | some Sz =>
                simp only [hfs2]
                cases rh with
                | none => simp
                | some range =>
                  by_cases hthrow : readStreamThrows (parseRange Sz range).1
                      (parseRange Sz range).2 = true
                  · simp [hthrow, errResponse]
                  · simp [hthrow, rangeResponse]
  · intro track typeParam vq range fp sp S s e hty hreq hfp hval hfs hparse h0s h0e hse
    have hshow : (audioHandler cwd fsSize (some track) typeParam vq (some range)).1
        = (streamPath cwd fsSize typeParam fp (some range)).1 := by
      rcases hty with h | h <;> subst h
      · show (audioTrackResponse cwd fsSize track "original" vq (some range)).1 = _
        unfold audioTrackResponse
        rw [hreq]
      · show (audioTrackResponse cwd fsSize track "extended" vq (some range)).1 = _
        unfold audioTrackResponse
        rw [hreq]
    rw [hshow, streamPath_range_ok cwd fsSize typeParam fp sp S range s e
      hfp hval hfs hparse h0s h0e hse]
    unfold rangeResponse
    rw [hparse]
    exact ⟨rfl, rfl⟩

set_option maxHeartbeats 2000000 in
/-- C10 counterexample: a start past the end of the file (`bytes=1500-`,
end defaulting to 999) does not give a 206 whose Content-Range exceeds
the file size, as the claim asserts: the stream constructor throws on
`start > end` and the catch answers 500 with no Content-Range at all. -/
theorem rangeUnvalidated_counterexample :
    (audioHandler "/app" demoFs (some freshTrack) "original" none
        (some "bytes=1500-")).1.status = 500
    ∧ (audioHandler "/app" demoFs (some freshTrack) "original" none
        (some "bytes=1500-")).1.contentRange = none
    ∧ (audioHandler "/app" demoFs (some freshTrack) "original" none
        (some "bytes=1500-")).1.contentLength = none := by
  refine ⟨by decide, by decide, by decide⟩

set_option maxHeartbeats 2000000 in
/-- C10 witness: the over-the-end range `bytes=100-4999` goes through the
general 206 statement with a Content-Length past the file size. -/
theorem rangeUnvalidated_witness :
    (audioHandler "/app" demoFs (some freshTrack) "original" none
        (some "bytes=100-4999")).1.status = 206
    ∧ (audioHandler "/app" demoFs (some freshTrack) "original" none
        (some "bytes=100-4999")).1.contentLength
      = some (some ((4999 : Int) - (100 : Int) + 1)) := by
  exact (rangeUnvalidated "/app" demoFs).2.1 freshTrack "original" none
    "bytes=100-4999" freshTrack.originalPath "/app/uploads/1712345678-42.mp3"
    1000 100 4999 (Or.inl rfl) rfl (by decide) (by decide) (by decide) (by decide)
    (by decide) (by decide) (by decide)

/-! ## Claim C2: PathGuard runs before every filesystem access -/

theorem jsIndex_not_ge {l : List (Option String)} {i : Int} {fp : String}
    (h : jsIndex l i = some fp) : ¬ i ≥ (l.length : Int) := by
  intro hge
  unfold jsIndex at h
  by_cases hi : i < 0
  · simp [hi] at h
  · rw [if_neg hi] at h
    have hnone : l.get? i.toNat = none := by
      apply List.get?_eq_none.mpr
      omega
    rw [hnone] at h
    simp [Option.join] at h

theorem streamPath_trace (cwd : String) (fsSize : FileSystem)
    (typeParam fp : String) (rh : Option String) (a : FsAccess)
    (ha : a ∈ (streamPath cwd fsSize typeParam fp rh).2) :
    validateAndSanitizePath cwd fp = some a.path := by
  unfold streamPath at ha
  by_cases hfp : fp = ""
  · rw [if_pos hfp] at ha
    simp at ha
  · rw [if_neg hfp] at ha
    cases hval : validateAndSanitizePath cwd fp with
    | none => rw [hval] at ha; simp at ha
    | some sp =>
      rw [hval] at ha
      cases hfs : fsSize sp with
      | none =>
        simp only [hfs] at ha
        simp at ha
        rw [ha]
        rfl
      | some S =>
        simp only [hfs] at ha
        cases rh with
        | none =>
          simp at ha
          rcases ha with h | h | h <;> rw [h] <;> rfl
        | some range =>
          by_cases hthrow : readStreamThrows (parseRange S range).1
              (parseRange S range).2 = true
          · simp only [hthrow] at ha
            simp at ha
            rcases ha with h | h <;> rw [h] <;> rfl
          · simp only [hthrow] at ha
            simp at ha
            rcases ha with h | h | h <;> rw [h] <;> rfl

theorem download_trace (cwd : String) (fsSize : FileSystem) (track : AudioTrack)
    (vq : Option String) (a : FsAccess)
    (ha : a ∈ (downloadTrackResponse cwd fsSize track vq).2) :
    ∃ fp, jsIndex (track.extendedPaths.getD []) (jsVersionIndex vq) = some fp
      ∧ validateAndSanitizePath cwd fp = some a.path := by
  unfold downloadTrackResponse at ha
  cases hidx : jsIndex (track.extendedPaths.getD []) (jsVersionIndex vq) with
  | none => simp only [hidx] at ha; simp at ha
  | some fp =>
    simp only [hidx] at ha
    refine ⟨fp, rfl, ?_⟩
    by_cases hcond : (decide (jsVersionIndex vq ≥ ((track.extendedPaths.getD []).length : Int))
        || decide (fp = "")) = true
    · rw [if_pos hcond] at ha
      simp at ha
    · rw [if_neg hcond] at ha
      cases hval : validateAndSanitizePath cwd fp with
      | none => rw [hval] at ha; simp at ha
      | some sp =>
        rw [hval] at ha
        cases hfs : fsSize sp with
        | none =>
          simp only [hfs] at ha
          simp at ha
          rw [ha]
          rfl
        | some S =>
          simp only [hfs] at ha
          simp at ha
          rcases ha with h | h <;> rw [h] <;> rfl

set_option maxHeartbeats 2000000 in
/-- C2: in both delivery routes, the path resolved from the persisted
record is validated before any filesystem access: on rejection the
response is the explicit 400 and the handler performs no filesystem
access at all (no fallback path), and every filesystem access that does
happen is on the exact value PathGuard returned for a resolved path. -/
theorem pathGuardBeforeFs (cwd : String) (fsSize : FileSystem) :
    (∀ (track : AudioTrack) (typeParam : String) (vq rh : Option String)
        (fp : String),
      (typeParam = "original" ∨ typeParam = "extended") →
      requestedPath track typeParam vq = some fp → fp ≠ "" →
      validateAndSanitizePath cwd fp = none →
      audioHandler cwd fsSize (some track) typeParam vq rh
        = (errResponse 400 "Invalid file path - path validation failed", []))
    ∧ (∀ (track : AudioTrack) (typeParam : String) (vq rh : Option String)
        (a : FsAccess),
        a ∈ (audioHandler cwd fsSize (some track) typeParam vq rh).2 →
        ∃ fp, requestedPath track typeParam vq = some fp
          ∧ validateAndSanitizePath cwd fp = some a.path)
    ∧ (∀ (track : AudioTrack) (vq : Option String) (fp : String),
        jsIndex (track.extendedPaths.getD []) (jsVersionIndex vq) = some fp →
        fp ≠ "" →
        validateAndSanitizePath cwd fp = none →
        downloadHandler cwd fsSize (some track) vq
          = (errResponse 400 "Invalid file path - path validation failed", []))
    ∧ (∀ (track : AudioTrack) (vq : Option String) (a : FsAccess),
        a ∈ (downloadHandler cwd fsSize (some track) vq).2 →
        ∃ fp, jsIndex (track.extendedPaths.getD []) (jsVersionIndex vq) = some fp
          ∧ validateAndSanitizePath cwd fp = some a.path) := by
  refine ⟨?_, ?_, ?_, ?_⟩
  · intro track typeParam vq rh fp hty hreq hfp hval
    have hbody : audioTrackResponse cwd fsSize track typeParam vq rh
        = (errResponse 400 "Invalid file path - path validation failed", []) := by
      unfold audioTrackResponse
      rw [hreq]
      show streamPath cwd fsSize typeParam fp rh = _
      unfold streamPath
      rw [if_neg hfp, hval]
    rcases hty with h | h <;> subst h <;> exact hbody
  · intro track typeParam vq rh a ha
    by_cases hty : (decide (typeParam ≠ "original")
        && decide (typeParam ≠ "extended")) = true
    · unfold audioHandler at ha
      rw [if_pos hty] at ha
      simp at ha
    · unfold audioHandler at ha
      rw [if_neg hty] at ha
      replace ha : a ∈ (audioTrackResponse cwd fsSize track typeParam vq rh).2 := ha
      unfold audioTrackResponse at ha
      cases hreq : requestedPath track typeParam vq with
      | none => rw [hreq] at ha; simp at ha
      | some fp =>
        rw [hreq] at ha
        replace ha : a ∈ (streamPath cwd fsSize typeParam fp rh).2 := ha
        exact ⟨fp, rfl, streamPath_trace cwd fsSize typeParam fp rh a ha⟩
  · intro track vq fp hidx hfp hval
    show downloadTrackResponse cwd fsSize track vq = _
    unfold downloadTrackResponse
    simp only [hidx]
    have hge : ¬ jsVersionIndex vq ≥ ((track.extendedPaths.getD []).length : Int) :=
      jsIndex_not_ge hidx
    have hcond : (decide (jsVersionIndex vq ≥ ((track.extendedPaths.getD []).length : Int))
        || decide (fp = "")) = false := by
      simp [hge, hfp]
    rw [if_neg (by simp [hcond]), hval]
  · intro track vq a ha
    replace ha : a ∈ (downloadTrackResponse cwd fsSize track vq).2 := ha
    exact download_trace cwd fsSize track vq a ha

set_option maxHeartbeats 2000000 in
/-- C2 witness: a tampered original path and a tampered extended entry
are both rejected with the explicit 400 and no filesystem access. -/
theorem pathGuardBeforeFs_witness :
    audioHandler "/app" demoFs
        (some { freshTrack with originalPath := "/etc/passwd" }) "original" none none
      = (errResponse 400 "Invalid file path - path validation failed", [])
    ∧ downloadHandler "/app" demoFs
        (some { freshTrack with extendedPaths := some [some "/etc/evil.mp3"] })
        (some "0")
      = (errResponse 400 "Invalid file path - path validation failed", []) := by
  constructor
  · exact (pathGuardBeforeFs "/app" demoFs).1
      { freshTrack with originalPath := "/etc/passwd" } "original" none none
      "/etc/passwd" (Or.inl rfl) rfl (by decide) (by decide)
  · exact (pathGuardBeforeFs "/app" demoFs).2.2.1
      { freshTrack with extendedPaths := some [some "/etc/evil.mp3"] } (some "0")
      "/etc/evil.mp3" (by decide) (by decide) (by decide)
